import Mathlib

/-!
Verification of the `lil-city` real-time simulation runtime.

This development embeds, in Lean, the code of
`src/lib-internal/src/sulphate/server.rs` (game-time conversion, the `Simple`
pausable clock, the `Interruption` dispatch, the bootstrap / handoff of
`start_server`, and the `ServerWatcher` guard) and of
`src/src/client/user_input.rs` (the `DirPad` direction pad and `Input`
interpretation of button events), and proves the specified properties about
those embeddings.

Machine integers are embedded as `ℕ`/`ℤ` with the wrapping of Rust `as` casts
made explicit (`% 2 ^ 32`, `% 2 ^ 64`); the `units` crate, which is not among
the provided sources, is modelled from the spec as stated on its definitions.
-/

set_option autoImplicit false

namespace LilCity

namespace units

/-- Modelled from the spec: the repository's `units` crate (the types
`units::Scalar`, `units::Duration`, `units::Time`) is not among the provided
sources.  Spec §3 describes them as "rational or fixed-point numeric types"
whose "sub-second fractional component [is] tracked explicitly, e.g. as a
ratio over one billion subunits".  We model all three as rationals. -/
abbrev Scalar : Type := ℚ

/-- Modelled from the spec: in-game elapsed time, a rational (see `Scalar`). -/
abbrev Duration : Type := ℚ

/-- Modelled from the spec: absolute in-game time, a rational (see `Scalar`). -/
abbrev Time : Type := ℚ

/-- Modelled from the spec: the `units` crate's conversion of a
`units::Duration` / `units::Scalar` into an `i32` (the `.into()` calls of
`duration_real_time`).  For a rational value we take the floor; every claim
settled through the negative branch uses an integral argument, on which any
integer-conversion convention (floor, truncation, rounding) agrees. -/
def intoI32 (q : ℚ) : ℤ := q.floor

end units

/-- Wall-clock duration, mirroring `std::time::Duration`: a whole-second count
(`u64` in Rust) and a sub-second nanosecond count (`u32`, kept below `10 ^ 9`
by `Duration::new`).  The `u64` range bound is irrelevant to the claims and
not carried. -/
structure WallDuration where
  secs : ℕ
  nanos : ℕ
deriving DecidableEq, Repr

/-- `std::time::Duration::new(secs, nanos)`: carries surplus nanoseconds into
the seconds (the `u64` overflow panic of the carry is unreachable in every
use below). -/
def WallDuration.new (s n : ℕ) : WallDuration :=
  ⟨s + n / 1000000000, n % 1000000000⟩

/-- Rust `as i32` on a `u64` value: two's-complement wrap into
`[-2 ^ 31, 2 ^ 31)`. -/
def u64_as_i32 (n : ℕ) : ℤ := ((n : ℤ) + 2147483648) % 4294967296 - 2147483648

/-- Rust `as i32` on a `u32` value: two's-complement wrap into
`[-2 ^ 31, 2 ^ 31)`. -/
def u32_as_i32 (n : ℕ) : ℤ := ((n : ℤ) + 2147483648) % 4294967296 - 2147483648

/-- Rust `as u64` on an `i32` value: two's-complement wrap into `[0, 2 ^ 64)`. -/
def i32_as_u64 (i : ℤ) : ℕ := (i % 18446744073709551616).toNat

/-- Rust `as u32` on an `i32` value: two's-complement wrap into `[0, 2 ^ 32)`. -/
def i32_as_u32 (i : ℤ) : ℕ := (i % 4294967296).toNat

/-- `duration_in_game` of `server.rs`: convert a wall-clock duration into an
in-game duration.  `duration.as_secs()` is a `u64` and is cast `as i32`;
`duration.subsec_nanos()` is a `u32` cast `as i32`. -/
def duration_in_game (duration : WallDuration) : units.Duration :=
  let seconds := duration.secs
  let nanos := duration.nanos
  let time_s : units.Duration := (u64_as_i32 seconds : ℚ)
  let time_n_num : units.Scalar := (u32_as_i32 nanos : ℚ)
  let time_n := time_n_num / 1000000000
  time_s + time_n

/-- `duration_real_time` of `server.rs`: convert an in-game duration into a
wall-clock duration.  The whole-second part is extracted by `.into()` to
`i32` and cast `as u64`; the fractional part is scaled by `10 ^ 9`, converted
to `i32` and cast `as u32`. -/
def duration_real_time (duration : units.Duration) : WallDuration :=
  let time_s : ℤ := units.intoI32 duration
  let time_frac := duration - (time_s : ℚ)
  let time_n : ℤ := units.intoI32 (time_frac * 1000000000)
  WallDuration.new (i32_as_u64 time_s) (i32_as_u32 time_n)

/-- `std::time::Instant`, modelled as a nanosecond count from an arbitrary
epoch. -/
abbrev Instant : Type := ℕ

/-- `now.duration_since(earlier)`: the exact wall-clock duration between two
instants (saturating to zero when `now < earlier`, as `ℕ` subtraction does). -/
def durationSince (now earlier : Instant) : WallDuration :=
  ⟨(now - earlier) / 1000000000, (now - earlier) % 1000000000⟩

/-- The `Simple` clock state of `server.rs`: the wall instant at which the
clock was last started (`None` while stopped) and the in-game time at the
last stop. -/
structure Simple where
  start_instant : Option Instant
  last_time : units.Time

/-- `Simple::new`. -/
def Simple.new (start_time : units.Time) : Simple :=
  ⟨none, start_time⟩

/-- `Simple::elapsed_as_of`: time only passes if the clock has started. -/
def Simple.elapsed_as_of (s : Simple) (now : Instant) : WallDuration :=
  match s.start_instant with
  | some start => durationSince now start
  | none => ⟨0, 0⟩

/-- `Simple::time`: current in-game time at wall instant `now`. -/
def Simple.time (s : Simple) (now : Instant) : units.Time :=
  s.last_time + duration_in_game (s.elapsed_as_of now)

/-- `Simple::stop`: freeze the in-game time computed at `now`. -/
def Simple.stop (s : Simple) (now : Instant) : Simple :=
  ⟨none, s.time now⟩

/-- `Simple::start`: stop, then resume running from `now`. -/
def Simple.start (s : Simple) (now : Instant) : Simple :=
  let stopped := s.stop now
  ⟨some now, stopped.last_time⟩

/-- The public `Clock` of `server.rs`, a newtype over `Simple`. -/
structure Clock where
  simple : Simple

/-- `Clock`'s `in_game` method (the `server::Clock` impl). -/
def Clock.in_game (c : Clock) (now : Instant) : units.Time :=
  c.simple.time now

/-- `Clock`'s `minimum_wait` method: `duration_real_time(until - now)`.  The
receiver is unused by the source. -/
def Clock.minimum_wait (_c : Clock) (now until' : units.Time) : WallDuration :=
  duration_real_time (until' - now)

/-! ### Helper lemmas about the conversions -/

lemma intoI32_eq_floor (q : ℚ) : units.intoI32 q = ⌊q⌋ := by
  rw [units.intoI32, Rat.floor_def', ← Rat.floor_def]

lemma u64_as_i32_of_lt {n : ℕ} (h : n < 2147483648) : u64_as_i32 n = n := by
  unfold u64_as_i32; omega

lemma u32_as_i32_of_lt {n : ℕ} (h : n < 2147483648) : u32_as_i32 n = n := by
  unfold u32_as_i32; omega

lemma i32_as_u64_of_nonneg {i : ℤ} (h0 : 0 ≤ i) (h1 : i < 18446744073709551616) :
    i32_as_u64 i = i.toNat := by
  unfold i32_as_u64; omega

lemma i32_as_u32_of_nonneg {i : ℤ} (h0 : 0 ≤ i) (h1 : i < 4294967296) :
    i32_as_u32 i = i.toNat := by
  unfold i32_as_u32; omega

/-- Under the `u64` cast bound, `duration_in_game` is exactly
`secs + nanos / 10 ^ 9`. -/
lemma duration_in_game_eq {s n : ℕ} (hs : s < 2147483648) (hn : n < 1000000000) :
    duration_in_game ⟨s, n⟩ = (s : ℚ) + (n : ℚ) / 1000000000 := by
  simp only [duration_in_game]
  rw [u64_as_i32_of_lt hs, u32_as_i32_of_lt (by omega)]
  push_cast
  ring

lemma duration_in_game_zero : duration_in_game ⟨0, 0⟩ = 0 := by
  rw [duration_in_game_eq (by norm_num) (by norm_num)]
  norm_num

lemma floor_add_frac {s n : ℕ} (hn : n < 1000000000) :
    ⌊(s : ℚ) + (n : ℚ) / 1000000000⌋ = s := by
  have h0 : (0 : ℚ) ≤ (n : ℚ) / 1000000000 := by positivity
  have h1 : (n : ℚ) / 1000000000 < 1 := by
    rw [div_lt_one (by norm_num)]
    exact_mod_cast hn
  rw [Int.floor_eq_iff]
  constructor
  · push_cast
    linarith
  · push_cast
    linarith

/-- Forward round trip, exact on the in-range seconds: converting a wall
duration whose second count survives the `as i32` cast into game time and
back is the identity. -/
lemma duration_round_trip {s n : ℕ} (hs : s < 2147483648) (hn : n < 1000000000) :
    duration_real_time (duration_in_game ⟨s, n⟩) = ⟨s, n⟩ := by
  rw [duration_in_game_eq hs hn]
  simp only [duration_real_time]
  rw [intoI32_eq_floor, floor_add_frac hn]
  have hfrac : (s : ℚ) + (n : ℚ) / 1000000000 - ((s : ℤ) : ℚ) = (n : ℚ) / 1000000000 := by
    push_cast; ring
  rw [hfrac]
  have hmul : (n : ℚ) / 1000000000 * 1000000000 = (n : ℚ) := by
    field_simp
  rw [hmul, intoI32_eq_floor, Int.floor_natCast]
  rw [i32_as_u64_of_nonneg (by positivity) (by exact_mod_cast by omega)]
  rw [i32_as_u32_of_nonneg (by positivity) (by exact_mod_cast by omega)]
  simp only [Int.toNat_natCast]
  unfold WallDuration.new
  have h1 : n / 1000000000 = 0 := Nat.div_eq_of_lt hn
  have h2 : n % 1000000000 = n := Nat.mod_eq_of_lt hn
  rw [h1, h2, Nat.add_zero]

/-- Reverse round trip: an in-game duration in `[0, 2 ^ 31)` survives the wall
conversion and back up to one part in `10 ^ 9`. -/
lemma duration_reverse_round_trip {d : ℚ} (h0 : 0 ≤ d) (h1 : d < 2147483648) :
    0 ≤ d - duration_in_game (duration_real_time d) ∧
    d - duration_in_game (duration_real_time d) < 1 / 1000000000 := by
  have hs0 : 0 ≤ ⌊d⌋ := Int.floor_nonneg.mpr h0
  have hs1 : ⌊d⌋ < 2147483648 := Int.floor_lt.mpr (by exact_mod_cast h1)
  have hfrac0 : (0 : ℚ) ≤ d - ⌊d⌋ := by
    have := Int.floor_le d
    linarith
  have hfrac1 : d - ⌊d⌋ < 1 := by
    have := Int.lt_floor_add_one d
    linarith
  have hm0 : 0 ≤ ⌊(d - ⌊d⌋) * 1000000000⌋ := Int.floor_nonneg.mpr (by positivity)
  have hm1 : ⌊(d - ⌊d⌋) * 1000000000⌋ < 1000000000 := by
    apply Int.floor_lt.mpr
    push_cast
    nlinarith
  have hml : ((⌊(d - ⌊d⌋) * 1000000000⌋ : ℚ)) ≤ (d - ⌊d⌋) * 1000000000 :=
    Int.floor_le _
  have hmu : (d - ⌊d⌋) * 1000000000 < (⌊(d - ⌊d⌋) * 1000000000⌋ : ℚ) + 1 :=
    Int.lt_floor_add_one _
  have hrt : duration_real_time d =
      ⟨(⌊d⌋).toNat, (⌊(d - ⌊d⌋) * 1000000000⌋).toNat⟩ := by
    simp only [duration_real_time, intoI32_eq_floor]
    rw [i32_as_u64_of_nonneg hs0 (by omega), i32_as_u32_of_nonneg hm0 (by omega)]
    unfold WallDuration.new
    have hd : (⌊(d - ⌊d⌋) * 1000000000⌋).toNat / 1000000000 = 0 :=
      Nat.div_eq_of_lt (by omega)
    have hm : (⌊(d - ⌊d⌋) * 1000000000⌋).toNat % 1000000000 =
        (⌊(d - ⌊d⌋) * 1000000000⌋).toNat :=
      Nat.mod_eq_of_lt (by omega)
    rw [hd, hm, Nat.add_zero]
  rw [hrt, duration_in_game_eq (by omega) (by omega)]
  have e1 : ((⌊d⌋.toNat : ℕ) : ℚ) = (⌊d⌋ : ℚ) := by
    exact_mod_cast congrArg (fun z : ℤ => (z : ℚ)) (Int.toNat_of_nonneg hs0)
  have e2 : (((⌊(d - ⌊d⌋) * 1000000000⌋).toNat : ℕ) : ℚ) =
      ((⌊(d - ⌊d⌋) * 1000000000⌋ : ℤ) : ℚ) := by
    exact_mod_cast congrArg (fun z : ℤ => (z : ℚ)) (Int.toNat_of_nonneg hm0)
  rw [e1, e2]
  constructor
  · linarith
  · linarith

/-- `duration_real_time` on an integral in-game duration: the fractional part
vanishes and the whole-second count is the `as u64` cast of the integer. -/
lemma duration_real_time_intCast (z : ℤ) :
    duration_real_time (z : ℚ) = WallDuration.new (i32_as_u64 z) 0 := by
  simp only [duration_real_time, intoI32_eq_floor, Int.floor_intCast]
  rw [sub_self, zero_mul, Int.floor_zero]
  norm_num [i32_as_u32]

lemma durationSince_self (t : Instant) : durationSince t t = ⟨0, 0⟩ := by
  unfold durationSince
  simp

lemma stopped_time_const (s : Simple) (h : s.start_instant = none) (t : Instant) :
    s.time t = s.last_time := by
  unfold Simple.time Simple.elapsed_as_of
  rw [h]
  simp [duration_in_game_zero]

/-! ### Claim theorems: time conversion and the clock -/

/-- C1: the claim requires `minimum_wait(now, until)` to be zero whenever
`until <= now`; at `now = 1`, `until = 0` the code instead computes
`duration_real_time(-1)`, whose negative whole-second count is cast `as u64`,
yielding a wait of `2 ^ 64 - 1` whole seconds rather than zero. -/
theorem minimum_wait_negative_delta :
    Clock.minimum_wait ⟨Simple.new 0⟩ 1 0 = ⟨18446744073709551615, 0⟩ ∧
    Clock.minimum_wait ⟨Simple.new 0⟩ 1 0 ≠ ⟨0, 0⟩ := by
  have h : Clock.minimum_wait ⟨Simple.new 0⟩ 1 0 = ⟨18446744073709551615, 0⟩ := by
    show duration_real_time (0 - 1) = _
    have e : (0 - 1 : ℚ) = ((-1 : ℤ) : ℚ) := by norm_num
    rw [e, duration_real_time_intCast]
    norm_num [i32_as_u64, WallDuration.new]
    rfl
  exact ⟨h, by rw [h]; intro hc; cases hc⟩

/-- C3 counterexample: the round trip is not within one nanosecond for every
non-negative wall duration with nanosecond-exact sub-second part — at
`2 ^ 31` whole seconds the `as i32` cast of the second count wraps to
`-2 ^ 31`, and the round trip returns `2 ^ 64 - 2 ^ 31` whole seconds, an
error of far more than one sub-unit. -/
theorem duration_round_trip_cex :
    duration_real_time (duration_in_game ⟨2147483648, 0⟩) =
      ⟨18446744071562067968, 0⟩ ∧
    2147483648 + 1 < 18446744071562067968 := by
  constructor
  · have e : duration_in_game ⟨2147483648, 0⟩ = ((-2147483648 : ℤ) : ℚ) := by
      simp only [duration_in_game]
      norm_num [u64_as_i32, u32_as_i32]
    rw [e, duration_real_time_intCast]
    norm_num [i32_as_u64, WallDuration.new]
    rfl
  · norm_num

/-- C3 (amended: the wall duration's whole-second count, resp. the in-game
duration, must lie below `2 ^ 31` so that the `as i32` casts do not wrap):
the wall-to-game-to-wall round trip is exact on nanosecond-exact durations,
the game-to-wall-to-game round trip loses less than one part in `10 ^ 9`,
and the zero duration maps to zero in both directions. -/
theorem duration_round_trip_spec :
    (∀ s n : ℕ, s < 2147483648 → n < 1000000000 →
      duration_real_time (duration_in_game ⟨s, n⟩) = ⟨s, n⟩) ∧
    (∀ d : ℚ, 0 ≤ d → d < 2147483648 →
      0 ≤ d - duration_in_game (duration_real_time d) ∧
      d - duration_in_game (duration_real_time d) < 1 / 1000000000) ∧
    duration_in_game ⟨0, 0⟩ = 0 ∧
    duration_real_time 0 = ⟨0, 0⟩ := by
  refine ⟨fun s n hs hn => duration_round_trip hs hn,
          fun d h0 h1 => duration_reverse_round_trip h0 h1,
          duration_in_game_zero, ?_⟩
  have e : (0 : ℚ) = ((0 : ℤ) : ℚ) := by norm_num
  rw [e, duration_real_time_intCast]
  norm_num [i32_as_u64, WallDuration.new]

/-- Witness for C3: the round trip is the identity on 12 s 345 ns. -/
theorem duration_round_trip_spec_witness :
    duration_real_time (duration_in_game ⟨12, 345⟩) = ⟨12, 345⟩ :=
  duration_round_trip_spec.1 12 345 (by norm_num) (by norm_num)

/-- C4: a clock stopped at `t0 ≤ t1` reports the same in-game time at `t1`
and at any later `t2`: after `stop` the in-game time is frozen regardless of
further wall-clock advancement. -/
theorem clock_stop_freezes_time (s : Simple) (t0 t1 t2 : Instant)
    (_h01 : t0 ≤ t1) (_h12 : t1 < t2) :
    (s.stop t0).time t1 = (s.stop t0).time t2 := by
  rw [stopped_time_const _ rfl, stopped_time_const _ rfl]

/-- Witness for C4 at a stopped clock and the instants 0 ≤ 1 < 2. -/
theorem clock_stop_freezes_time_witness :
    ((Simple.new 0).stop 0).time 1 = ((Simple.new 0).stop 0).time 2 :=
  clock_stop_freezes_time (Simple.new 0) 0 1 2 (by decide) (by decide)

/-- C5: after `start` at `t0`, querying at a later `t1` advances the in-game
time by exactly `duration_in_game` of the elapsed wall duration; and while
running (`start_instant = some st`), the in-game time at `now` is the frozen
base plus `duration_in_game (now - st)`. -/
theorem clock_start_resume (s : Simple) (t0 t1 : Instant) (_h : t0 < t1) :
    (s.start t0).time t1 - (s.start t0).time t0 =
      duration_in_game (durationSince t1 t0) ∧
    ∀ (s2 : Simple) (st now : Instant), s2.start_instant = some st →
      s2.time now = s2.last_time + duration_in_game (durationSince now st) := by
  constructor
  · simp only [Simple.start, Simple.stop, Simple.time, Simple.elapsed_as_of]
    rw [durationSince_self, duration_in_game_zero]
    ring
  · intro s2 st now h2
    unfold Simple.time Simple.elapsed_as_of
    rw [h2]

/-- Witness for C5 at a fresh clock started at 3 and queried at 5. -/
theorem clock_start_resume_witness :
    ((Simple.new 0).start 3).time 5 - ((Simple.new 0).start 3).time 3 =
      duration_in_game (durationSince 5 3) :=
  (clock_start_resume (Simple.new 0) 3 5 (by decide)).1

/-!
### The client input handler, `src/src/client/user_input.rs`

The key/button type `piston_window::Button` is external; it is embedded as an
arbitrary type `B` with decidable equality (the source only compares buttons
with `==`). -/

/-- The `Dir` enum of `user_input.rs`. -/
inductive Dir
  | up
  | down
  | left
  | right
deriving DecidableEq, Repr

/-- The `DirPad<T>` struct of `user_input.rs`: one `T` per direction. -/
structure DirPad (T : Type) where
  up : T
  down : T
  left : T
  right : T
deriving DecidableEq, Repr

/-- The `Index<Dir>` impl for `DirPad<T>`. -/
def DirPad.index {T : Type} (p : DirPad T) : Dir → T
  | Dir.up => p.up
  | Dir.down => p.down
  | Dir.left => p.left
  | Dir.right => p.right

/-- The `IndexMut<Dir>` impl for `DirPad<T>`, as a functional update
(`pad[dir] = x`). -/
def DirPad.index_mut {T : Type} (p : DirPad T) (d : Dir) (x : T) : DirPad T :=
  match d with
  | Dir.up => { p with up := x }
  | Dir.down => { p with down := x }
  | Dir.left => { p with left := x }
  | Dir.right => { p with right := x }

/-- `DirPad::dir`: find which direction, if any, holds `item`, testing
`up`, `down`, `left`, `right` in that order. -/
def DirPad.dir {T : Type} [DecidableEq T] (p : DirPad T) (item : T) : Option Dir :=
  if item = p.up then some Dir.up
  else if item = p.down then some Dir.down
  else if item = p.left then some Dir.left
  else if item = p.right then some Dir.right
  else none

/-- `piston_window::ButtonState` (only the `Press` case is distinguished). -/
inductive ButtonState
  | press
  | release
deriving DecidableEq, Repr

/-- `piston_window::ButtonArgs`, restricted to the fields the source reads
(the `scancode` field is discarded by the `..` pattern). -/
structure ButtonArgs (B : Type) where
  button : B
  state : ButtonState

/-- The `DeviceUpdate` enum of `user_input.rs`. -/
inductive DeviceUpdate
  | nop
  | changeMovement (dirs : DirPad Bool)
deriving DecidableEq, Repr

/-- The `Input` struct of `user_input.rs`: the key bindings and the current
pressed-state of the four movement directions. -/
structure Input (B : Type) where
  move_controls : DirPad B
  dirs : DirPad Bool

/-- `Input::interpret`: a button event toggles the stored direction state and
reports the new pad when it is bound to a direction and its pressed-state
changed; otherwise it is a no-op.  The mutation of `self` is returned as the
second component. -/
def Input.interpret {B : Type} [DecidableEq B] (inp : Input B) (bin : ButtonArgs B) :
    DeviceUpdate × Input B :=
  let butt_pressed : Bool := decide (bin.state = ButtonState.press)
  match inp.move_controls.dir bin.button with
  | some dir =>
      if inp.dirs.index dir ≠ butt_pressed then
        let dirs := inp.dirs.index_mut dir butt_pressed
        (DeviceUpdate.changeMovement dirs, { inp with dirs := dirs })
      else
        (DeviceUpdate.nop, inp)
  | none => (DeviceUpdate.nop, inp)

/-- C9: `Input::interpret` returns `ChangeMovement` with the updated pad (and
stores it) exactly when the button is bound to a direction whose stored state
differs from the event's pressed-state; in every other case it returns `Nop`
and leaves the state unchanged. -/
theorem input_interpret_spec {B : Type} [DecidableEq B]
    (inp : Input B) (bin : ButtonArgs B) :
    (∀ d : Dir, inp.move_controls.dir bin.button = some d →
      (inp.dirs.index d ≠ decide (bin.state = ButtonState.press) →
        inp.interpret bin =
          (DeviceUpdate.changeMovement
            (inp.dirs.index_mut d (decide (bin.state = ButtonState.press))),
           { inp with
             dirs := inp.dirs.index_mut d (decide (bin.state = ButtonState.press)) })) ∧
      (inp.dirs.index d = decide (bin.state = ButtonState.press) →
        inp.interpret bin = (DeviceUpdate.nop, inp))) ∧
    (inp.move_controls.dir bin.button = none →
      inp.interpret bin = (DeviceUpdate.nop, inp)) := by
  refine ⟨fun d hd => ⟨fun hne => ?_, fun heq => ?_⟩, fun hn => ?_⟩
  · simp only [Input.interpret, hd]
    rw [if_pos hne]
  · simp only [Input.interpret, hd]
    rw [if_neg (fun hc => hc heq)]
  · simp only [Input.interpret, hn]

/-- Witness for C9: pressing the (unpressed) up key yields `ChangeMovement`
with `up` now held. -/
theorem input_interpret_spec_witness :
    Input.interpret ⟨⟨0, 1, 2, 3⟩, ⟨false, false, false, false⟩⟩
        (⟨0, ButtonState.press⟩ : ButtonArgs ℕ) =
      (DeviceUpdate.changeMovement ⟨true, false, false, false⟩,
       ⟨⟨0, 1, 2, 3⟩, ⟨true, false, false, false⟩⟩) :=
  ((input_interpret_spec ⟨⟨0, 1, 2, 3⟩, ⟨false, false, false, false⟩⟩
      ⟨0, ButtonState.press⟩).1 Dir.up (by decide)).1 (by decide)

/-- C10: on a pad whose four entries are pairwise distinct, `DirPad::dir` is a
left inverse of indexing, and it returns `none` exactly on items matching no
entry. -/
theorem dirpad_dir_left_inverse {T : Type} [DecidableEq T] (p : DirPad T)
    (hud : p.up ≠ p.down) (hul : p.up ≠ p.left) (hur : p.up ≠ p.right)
    (hdl : p.down ≠ p.left) (hdr : p.down ≠ p.right) (hlr : p.left ≠ p.right) :
    (∀ d : Dir, p.dir (p.index d) = some d) ∧
    (∀ item : T, p.dir item = none ↔
      (item ≠ p.up ∧ item ≠ p.down ∧ item ≠ p.left ∧ item ≠ p.right)) := by
  constructor
  · intro d
    cases d <;>
      simp [DirPad.dir, DirPad.index, hud, hul, hur, hdl, hdr, hlr,
        Ne.symm hud, Ne.symm hul, Ne.symm hur, Ne.symm hdl, Ne.symm hdr,
        Ne.symm hlr]
  · intro item
    simp only [DirPad.dir]
    split_ifs with h1 h2 h3 h4 <;> simp_all

/-- Witness for C10 on the pad `⟨0, 1, 2, 3⟩`. -/
theorem dirpad_dir_left_inverse_witness :
    DirPad.dir ⟨0, 1, 2, 3⟩ (DirPad.index (⟨0, 1, 2, 3⟩ : DirPad ℕ) Dir.down) =
      some Dir.down :=
  (dirpad_dir_left_inverse ⟨0, 1, 2, 3⟩ (by decide) (by decide) (by decide)
    (by decide) (by decide) (by decide)).1 Dir.down

/-!
### The server runtime, `src/lib-internal/src/sulphate/server.rs`

The collaborator types (`space::CollisionSpace`, `sulphate::EventQueue`,
`sulphate::EntityHeap`, `sulphate::EntityId`, `player::Control`, the channel
endpoints, and `sulphate_lib`'s `Server`) are external to the sources and are
embedded as type parameters; their constructors and the control-application
function `player::Control::apply` are passed in as values. -/

/-- The `sulphate::World` aggregate: collision space plus entity heap. -/
structure World (CollisionSpace EntityHeap : Type) where
  space : CollisionSpace
  matter : EntityHeap

/-- The `Interruption` enum of `server.rs`. -/
inductive Interruption (EntityId Control : Type)
  | playerUpdate (id : EntityId) (control : Control)
  | killServer

/-- `Interruption::update`: the `server::Interruption` impl.  `applyControl`
is the external `player::Control::apply`, state-passing in the three
locations it mutates (`world.space`, the event queue, `world.matter`); the
returned `Bool` is the should-stop flag. -/
def Interruption.update
    {CollisionSpace EventQueue EntityHeap EntityId Control : Type}
    (applyControl : CollisionSpace → EventQueue → EntityHeap → EntityId →
      Control → CollisionSpace × EventQueue × EntityHeap)
    (i : Interruption EntityId Control) (time : EventQueue)
    (world : World CollisionSpace EntityHeap) :
    EventQueue × World CollisionSpace EntityHeap × Bool :=
  match i with
  | Interruption.playerUpdate id control =>
      let (space, time', matter) :=
        applyControl world.space time world.matter id control
      (time', ⟨space, matter⟩, false)
  | Interruption.killServer => (time, world, true)

/-- C6: `KillServer` returns `true` and leaves the event queue and the world
untouched; `PlayerUpdate` applies the named actor's control update through
`player::Control::apply` and returns `false`. -/
theorem interruption_update_spec
    {CollisionSpace EventQueue EntityHeap EntityId Control : Type}
    (applyControl : CollisionSpace → EventQueue → EntityHeap → EntityId →
      Control → CollisionSpace × EventQueue × EntityHeap)
    (time : EventQueue) (world : World CollisionSpace EntityHeap) :
    Interruption.update applyControl Interruption.killServer time world =
      (time, world, true) ∧
    ∀ (id : EntityId) (control : Control),
      Interruption.update applyControl (Interruption.playerUpdate id control)
          time world =
        ((applyControl world.space time world.matter id control).2.1,
         ⟨(applyControl world.space time world.matter id control).1,
          (applyControl world.space time world.matter id control).2.2⟩,
         false) := by
  refine ⟨rfl, fun id control => ?_⟩
  simp only [Interruption.update]

/-- The external collaborators consumed by the bootstrap: the subsystem
constructors, `sulphate_lib`'s `Server::new`, and the interruption channel
(`mpsc::channel()`), with `Sender`/`Recv` the two endpoint types. -/
structure ServerExt (CollisionSpace EventQueue EntityHeap Sender Recv Server :
    Type) where
  spaceNew : CollisionSpace
  eqNew : units.Time → EventQueue
  heapNew : EntityHeap
  serverNew : EventQueue → World CollisionSpace EntityHeap → Recv → Clock →
    Server
  channel : Sender × Recv

/-- `create_server_local` of `server.rs`: build the started clock, run the
builder `f` on the fresh subsystems, assemble the world and the server.  The
builder receives mutable access to the collision space, event queue and
entity heap, modelled state-passing: it returns their final states together
with its result. -/
def create_server_local
    {CollisionSpace EventQueue EntityHeap Sender Recv Server R : Type}
    (ext : ServerExt CollisionSpace EventQueue EntityHeap Sender Recv Server)
    (now : Instant)
    (f : CollisionSpace → EventQueue → EntityHeap →
      CollisionSpace × EventQueue × EntityHeap × R)
    (upd : Recv) : Server × Clock × R :=
  let initial_time : units.Time := 0
  let clock : Clock := ⟨(Simple.new initial_time).start now⟩
  let (space, time, matter, r) := f ext.spaceNew (ext.eqNew initial_time) ext.heapNew
  let world : World CollisionSpace EntityHeap := ⟨space, matter⟩
  let server := ext.serverNew time world upd clock
  (server, clock, r)

/-- `start_server` of `server.rs`, value level.  The spawned thread's closure
runs `create_server_local` and sends `(clock, r)` over the one-shot handoff
channel; the caller blocks on `recv` and returns the interruption sender with
the received pair.  The rendezvous is modelled by the received value being
the sent value; `now` is the wall instant read inside `create_server_local`. -/
def start_server
    {CollisionSpace EventQueue EntityHeap Sender Recv Server R : Type}
    (ext : ServerExt CollisionSpace EventQueue EntityHeap Sender Recv Server)
    (now : Instant)
    (f : CollisionSpace → EventQueue → EntityHeap →
      CollisionSpace × EventQueue × EntityHeap × R) :
    Sender × Clock × R :=
  let upd := ext.channel.1
  let upd_recv := ext.channel.2
  let spawned := create_server_local ext now f upd_recv
  let sent : Clock × R := (spawned.2.1, spawned.2.2)
  let received := sent
  (upd, received.1, received.2)

/-- One step of the runtime as observed from outside, labelled by the thread
that performs it.  `callBuilder` is the invocation of the builder closure
(line 187, reached from the spawned closure); `mkWatcher` / `markNatural`
are the creation of the `ServerWatcher` guard and the final
`announce_shutdown.natural = true`. -/
inductive ThreadEvent
  | createChannels
  | spawnThread
  | recvHandoff
  | mkWatcher
  | startClock
  | callBuilder
  | assembleServer
  | sendHandoff
  | runServer
  | markNatural
deriving DecidableEq, Repr

/-- The events of `create_server_local` (lines 168-194), in program order. -/
def createServerLocalEvents : List ThreadEvent :=
  [ThreadEvent.startClock, ThreadEvent.callBuilder, ThreadEvent.assembleServer]

/-- The events of the closure passed to `thread::spawn` (lines 227-236), in
program order: guard creation, `create_server_local` (builder included),
handoff send, `server.run()`, and the final flag set. -/
def spawnedThreadEvents : List ThreadEvent :=
  ThreadEvent.mkWatcher :: createServerLocalEvents ++
    [ThreadEvent.sendHandoff, ThreadEvent.runServer, ThreadEvent.markNatural]

/-- The events `start_server` performs on the calling thread (lines 224-240),
in program order: channel creation, spawn, then the blocking receive as its
last action before returning the triple. -/
def callerThreadEvents : List ThreadEvent :=
  [ThreadEvent.createChannels, ThreadEvent.spawnThread, ThreadEvent.recvHandoff]

/-- The `ServerWatcher` guard of `server.rs`. -/
structure ServerWatcher where
  natural : Bool

/-- The `Drop` impl of `ServerWatcher`: the line printed when the guard is
released. -/
def ServerWatcher.dropMessage (w : ServerWatcher) : String :=
  if w.natural then "Server closed without panicking" else "Server panicked"

/-- The guard's drop reports the clean case. -/
def ServerWatcher.reportsClean (w : ServerWatcher) : Prop :=
  w.dropMessage = "Server closed without panicking"

/-- The watcher flag along a list of events: `none` before the guard exists,
then the value of its `natural` field (`false` at creation, set `true` by
`markNatural`; no other event touches it). -/
def watcherStep (flag : Option Bool) (e : ThreadEvent) : Option Bool :=
  match e with
  | ThreadEvent.mkWatcher => some false
  | ThreadEvent.markNatural => flag.map fun _ => true
  | _ => flag

/-- The watcher flag after executing a prefix of a thread's events. -/
def watcherFlagAfter (es : List ThreadEvent) : Option Bool :=
  es.foldl watcherStep none

/-- C2 counterexample: the builder closure does not execute on the calling
thread — `f` is moved into the closure passed to `thread::spawn` (hence the
`F: Send + 'static` bound) and is invoked by `create_server_local` on the
spawned thread, so the builder-call event lies on the spawned thread's trace
and on no other. -/
theorem builder_on_caller_cex :
    ThreadEvent.callBuilder ∈ spawnedThreadEvents ∧
    ThreadEvent.callBuilder ∉ callerThreadEvents := by
  decide

/-- C2 (amended: the builder executes on the spawned simulation thread, not
the calling thread; the constructed state stays there, and what crosses back
to the caller is only the clock snapshot and the builder's result): the
builder-call event belongs to the spawned thread's trace and not the
caller's, and the caller's returned result component is exactly the value
the builder returned. -/
theorem builder_runs_on_spawned_thread
    {CollisionSpace EventQueue EntityHeap Sender Recv Server R : Type}
    (ext : ServerExt CollisionSpace EventQueue EntityHeap Sender Recv Server)
    (now : Instant)
    (f : CollisionSpace → EventQueue → EntityHeap →
      CollisionSpace × EventQueue × EntityHeap × R) :
    ThreadEvent.callBuilder ∈ spawnedThreadEvents ∧
    ThreadEvent.callBuilder ∉ callerThreadEvents ∧
    (start_server ext now f).2 =
      (⟨(Simple.new 0).start now⟩,
       (f ext.spaceNew (ext.eqNew 0) ext.heapNew).2.2.2) := by
  refine ⟨by decide, by decide, ?_⟩
  simp only [start_server, create_server_local]

/-- C7: `start_server` returns the triple of the interruption sender, the
clock snapshot sent over the handoff channel, and exactly the value the
builder returned; on the spawned thread the handoff send happens after the
builder call and server assembly, and the caller's blocking receive is its
last action before returning. -/
theorem start_server_handoff_spec
    {CollisionSpace EventQueue EntityHeap Sender Recv Server R : Type}
    (ext : ServerExt CollisionSpace EventQueue EntityHeap Sender Recv Server)
    (now : Instant)
    (f : CollisionSpace → EventQueue → EntityHeap →
      CollisionSpace × EventQueue × EntityHeap × R) :
    start_server ext now f =
      (ext.channel.1, ⟨(Simple.new 0).start now⟩,
       (f ext.spaceNew (ext.eqNew 0) ext.heapNew).2.2.2) ∧
    List.indexOf ThreadEvent.callBuilder spawnedThreadEvents <
      List.indexOf ThreadEvent.sendHandoff spawnedThreadEvents ∧
    List.indexOf ThreadEvent.assembleServer spawnedThreadEvents <
      List.indexOf ThreadEvent.sendHandoff spawnedThreadEvents ∧
    callerThreadEvents.getLast? = some ThreadEvent.recvHandoff := by
  refine ⟨?_, by decide, by decide, by decide⟩
  simp only [start_server, create_server_local]

/-- C8: the `ServerWatcher` guard is created by the first event of the
spawned thread with its flag `false`, the flag becomes `true` only once all
events — the last being the flag set that follows `server.run()` — have
executed (so a run cut short anywhere earlier still holds `false`), and the
guard's drop reports the clean case exactly when the flag is `true`. -/
theorem server_watcher_spec :
    spawnedThreadEvents.head? = some ThreadEvent.mkWatcher ∧
    watcherFlagAfter [ThreadEvent.mkWatcher] = some false ∧
    spawnedThreadEvents.getLast? = some ThreadEvent.markNatural ∧
    (∀ k : ℕ, k < spawnedThreadEvents.length →
      watcherFlagAfter (spawnedThreadEvents.take k) ≠ some true) ∧
    watcherFlagAfter spawnedThreadEvents = some true ∧
    (∀ w : ServerWatcher, w.reportsClean ↔ w.natural = true) := by
  refine ⟨by decide, by decide, by decide, by decide, by decide, ?_⟩
  intro w
  rcases w with ⟨b⟩
  cases b <;> simp [ServerWatcher.reportsClean, ServerWatcher.dropMessage]

/-- Witness for C8: the flag is still `false` after the spawned thread's
first three events (guard created, clock started, builder called). -/
theorem server_watcher_spec_witness :
    watcherFlagAfter (spawnedThreadEvents.take 3) ≠ some true :=
  server_watcher_spec.2.2.2.1 3 (by decide)

end LilCity
